import Mathlib

/-!
Verification of the `rust-changeback` counter contract
(`src/rust-changeback/src/lib.rs`).

The contract holds a single `i32` field `val` and exposes four methods:
`get_num`, `add`, `change`, `reset`.  We embed the contract shallowly:

* `i32` values are modelled as `Int` together with the predicate `inI32`;
  the Rust `+=`/`-=` on `i32` in a release (wasm) build wraps in
  two's complement, which `wrap32` captures (`% 2^32` recentred on the
  signed range).
* each state-changing method returns the new state together with the
  list of log lines it emits (`env::log` calls), in order;
* the debug/trapping reading of the same arithmetic (overflow faults the
  invocation) is modelled by the `...Checked` variants, which return
  `none` exactly when the result leaves the `i32` range.
-/

/-- Two's-complement wrap of an unbounded integer into the signed
32-bit range, the behaviour of Rust `i32` arithmetic when overflow
checks are disabled. -/
def wrap32 (x : Int) : Int := (x + 2 ^ 31) % 2 ^ 32 - 2 ^ 31

/-- Smallest `i32` value, `-2147483648`. -/
def i32Min : Int := -(2 ^ 31)

/-- Largest `i32` value, `2147483647`. -/
def i32Max : Int := 2 ^ 31 - 1

/-- `x` is representable as an `i32`. -/
def inI32 (x : Int) : Prop := i32Min ≤ x ∧ x ≤ i32Max

instance (x : Int) : Decidable (inI32 x) := by
  unfold inI32
  infer_instance

/-- The contract state: `pub struct Change { val: i32 }`. -/
@[ext]
structure Change where
  val : Int
deriving DecidableEq, Repr

/-- `#[derive(Default)]` on `Change`: `i32::default()` is `0`. -/
def Change.default : Change := ⟨0⟩

/-- `pub fn get_num(&self) -> i32 { return self.val; }` — takes `&self`,
so it cannot modify the state; modelled as a pure function. -/
def Change.get_num (c : Change) : Int := c.val

/-- `fn after_counter_change()`: logs a fixed overflow warning.
Modelled as the list of log lines it emits. -/
def after_counter_change : List String :=
  ["Make sure you don't overflow, my friend."]

/-- `pub fn add(&mut self)`: `self.val += 1000`, then logs
`"Added money to {}"` with the new value, then calls
`after_counter_change`.  Returns the new state and the emitted log
lines in order. -/
def Change.add (c : Change) : Change × List String :=
  let v := wrap32 (c.val + 1000)
  (⟨v⟩, ("Added money to " ++ toString v) :: after_counter_change)

/-- `pub fn change(&mut self)`: `self.val -= 10`, then logs
`"Value after change {}"` with the new value, then calls
`after_counter_change`. -/
def Change.change (c : Change) : Change × List String :=
  let v := wrap32 (c.val - 10)
  (⟨v⟩, ("Value after change " ++ toString v) :: after_counter_change)

/-- `pub fn reset(&mut self)`: `self.val = 0;` then logs
`"Reset Change to zero"`. -/
def Change.reset (_c : Change) : Change × List String :=
  (⟨0⟩, ["Reset Change to zero"])

/-- `add` under the trapping (debug / host-trap) reading of `i32`
overflow: `none` exactly when `self.val + 1000` leaves the `i32`
range. -/
def Change.addChecked (c : Change) : Option (Change × List String) :=
  let v := c.val + 1000
  if inI32 v then
    some (⟨v⟩, ("Added money to " ++ toString v) :: after_counter_change)
  else none

/-- `change` under the trapping reading of `i32` overflow. -/
def Change.changeChecked (c : Change) : Option (Change × List String) :=
  let v := c.val - 10
  if inI32 v then
    some (⟨v⟩, ("Value after change " ++ toString v) :: after_counter_change)
  else none

/-- `reset` has no arithmetic, hence no fault source: the trapping
reading always succeeds. -/
def Change.resetChecked (c : Change) : Option (Change × List String) :=
  some (Change.reset c)

/-- `get_num` has no arithmetic, hence no fault source. -/
def Change.get_numChecked (c : Change) : Option Int :=
  some (Change.get_num c)

/-- `n` successive calls to `change`, discarding logs. -/
def Change.changeN : Nat → Change → Change
  | 0, c => c
  | n + 1, c => Change.changeN n (Change.change c).1

/- ## Helper lemmas -/

theorem wrap32_eq_self {x : Int} (h1 : i32Min ≤ x) (h2 : x ≤ i32Max) :
    wrap32 x = x := by
  unfold wrap32
  unfold i32Min at h1
  unfold i32Max at h2
  have h3 : (0 : Int) ≤ x + 2 ^ 31 := by omega
  have h4 : x + 2 ^ 31 < 2 ^ 32 := by omega
  rw [Int.emod_eq_of_lt h3 h4]
  omega

theorem add_val {c : Change} (h1 : i32Min ≤ c.val + 1000)
    (h2 : c.val + 1000 ≤ i32Max) : (Change.add c).1.val = c.val + 1000 := by
  simp [Change.add, wrap32_eq_self h1 h2]

theorem change_val {c : Change} (h1 : i32Min ≤ c.val - 10)
    (h2 : c.val - 10 ≤ i32Max) : (Change.change c).1.val = c.val - 10 := by
  simp [Change.change, wrap32_eq_self h1 h2]

theorem changeN_val (n : Nat) (c : Change)
    (h1 : i32Min ≤ c.val - 10 * n) (h2 : c.val ≤ i32Max) :
    (Change.changeN n c).val = c.val - 10 * n := by
  induction n generalizing c with
  | zero => simp [Change.changeN]
  | succ m ih =>
    have hlo : i32Min ≤ c.val - 10 := by
      push_cast at h1
      omega
    have hhi : c.val - 10 ≤ i32Max := by omega
    have hstep : (Change.change c).1.val = c.val - 10 := change_val hlo hhi
    have hrec := ih (Change.change c).1
      (by rw [hstep]; push_cast at h1 ⊢; omega) (by omega)
    rw [Change.changeN, hrec, hstep]
    push_cast
    ring

/- ## Claims -/

/-- C1 (counterexample): at `val = i32::MAX = 2147483647` the wrapping
addition does not set the value to `value + 1000`, so the claim's
unrestricted "for every counter state" fails. -/
theorem C1_counterexample :
    (Change.add ⟨2147483647⟩).1.val ≠ 2147483647 + 1000 := by decide

/-- C1 (amended): for every counter state whose value is a valid `i32`
with `value + 1000 ≤ i32::MAX`, `add()` sets `value` to `value + 1000`
and emits exactly two log lines — first the diagnostic message
containing the new value, then the fixed overflow warning; in
particular `add()` on value `0` leaves `get_num()` returning `1000`. -/
theorem C1_add_spec (c : Change) (hv : inI32 c.val)
    (h : c.val + 1000 ≤ i32Max) :
    (Change.add c).1.val = c.val + 1000 ∧
    (Change.add c).2 =
      ["Added money to " ++ toString (c.val + 1000),
       "Make sure you don't overflow, my friend."] ∧
    (Change.add ⟨0⟩).1.get_num = 1000 := by
  have h1 : i32Min ≤ c.val + 1000 := by
    have := hv.1
    omega
  refine ⟨add_val h1 h, ?_, by decide⟩
  simp [Change.add, after_counter_change, wrap32_eq_self h1 h]

/-- C1 witness: the amended claim instantiated at the zero state. -/
theorem C1_add_spec_witness :
    (Change.add ⟨0⟩).1.val = (0 : Int) + 1000 ∧
    (Change.add ⟨0⟩).2 =
      ["Added money to " ++ toString ((0 : Int) + 1000),
       "Make sure you don't overflow, my friend."] ∧
    (Change.add ⟨0⟩).1.get_num = 1000 :=
  C1_add_spec ⟨0⟩ (by decide) (by decide)

/-- C2 (counterexample): at `val = i32::MIN = -2147483648` the wrapping
subtraction does not set the value to `value - 10`, so the claim's
unrestricted "for every counter state" fails. -/
theorem C2_counterexample :
    (Change.change ⟨-2147483648⟩).1.val ≠ -2147483648 - 10 := by decide

/-- C2 (amended): for every counter state whose value is a valid `i32`
with `i32::MIN ≤ value - 10`, `change()` sets `value` to `value - 10`
and emits exactly two log lines — first the message containing the new
value, then the same fixed overflow warning as `add()`; in particular
`change()` on value `0` leaves `get_num()` returning `-10`. -/
theorem C2_change_spec (c : Change) (hv : inI32 c.val)
    (h : i32Min ≤ c.val - 10) :
    (Change.change c).1.val = c.val - 10 ∧
    (Change.change c).2 =
      ["Value after change " ++ toString (c.val - 10),
       "Make sure you don't overflow, my friend."] ∧
    (Change.change ⟨0⟩).1.get_num = -10 := by
  have h2 : c.val - 10 ≤ i32Max := by
    have := hv.2
    omega
  refine ⟨change_val h h2, ?_, by decide⟩
  simp [Change.change, after_counter_change, wrap32_eq_self h h2]

/-- C2 witness: the amended claim instantiated at the zero state. -/
theorem C2_change_spec_witness :
    (Change.change ⟨0⟩).1.val = (0 : Int) - 10 ∧
    (Change.change ⟨0⟩).2 =
      ["Value after change " ++ toString ((0 : Int) - 10),
       "Make sure you don't overflow, my friend."] ∧
    (Change.change ⟨0⟩).1.get_num = -10 :=
  C2_change_spec ⟨0⟩ (by decide) (by decide)

/-- C3: from every prior counter state, `reset()` sets the value to `0`
and emits exactly one log line, the fixed message
`"Reset Change to zero"`; in particular `add()` followed by `reset()`
on value `0` leaves `get_num()` returning `0`. -/
theorem C3_reset_spec (c : Change) :
    (Change.reset c).1.val = 0 ∧
    (Change.reset c).2 = ["Reset Change to zero"] ∧
    (Change.reset (Change.add ⟨0⟩).1).1.get_num = 0 := by
  refine ⟨rfl, rfl, rfl⟩

/-- C4: for every counter state (with its `i32` invariant), `get_num()`
returns the current value, which is a valid signed 32-bit integer; it
is modelled as a pure function of the state (the Rust method takes
`&self`), so it has no side effect and cannot fail. -/
theorem C4_get_num_spec (c : Change) (hv : inI32 c.val) :
    Change.get_num c = c.val ∧ inI32 (Change.get_num c) ∧
    Change.get_numChecked c = some c.val :=
  ⟨rfl, hv, rfl⟩

/-- C4 witness: instantiated at the zero state. -/
theorem C4_get_num_spec_witness :
    Change.get_num ⟨0⟩ = (Change.mk 0).val ∧
    inI32 (Change.get_num ⟨0⟩) ∧
    Change.get_numChecked ⟨0⟩ = some (Change.mk 0).val :=
  C4_get_num_spec ⟨0⟩ (by decide)

/-- C5: a freshly constructed (default) counter has value `0`, so
`get_num()` returns `0` before any mutating operation. -/
theorem C5_default_spec : Change.get_num Change.default = 0 := rfl

/-- C6: `reset()` is idempotent — from every counter state, calling it
twice yields the same final state (value `0`) as calling it once. -/
theorem C6_reset_idempotent (c : Change) :
    (Change.reset (Change.reset c).1).1 = (Change.reset c).1 ∧
    (Change.reset c).1.val = 0 :=
  ⟨rfl, rfl⟩

/-- C7: starting from a counter with value `0`, calling `add()` and
then `change()` leaves `get_num()` returning `990`. -/
theorem C7_add_then_change :
    (Change.change (Change.add ⟨0⟩).1).1.get_num = 990 := by decide

/-- C8: for every value with `i32::MIN + 10 ≤ value ≤ i32::MAX - 1000`,
`add()` and `change()` complete without an arithmetic fault (the
trapping reading of the overflowing operation returns `some`), and
`reset()` and `get_num()` complete without error from every state. -/
theorem C8_no_fault (c : Change)
    (h : i32Min + 10 ≤ c.val ∧ c.val ≤ i32Max - 1000) :
    (Change.addChecked c).isSome ∧ (Change.changeChecked c).isSome ∧
    (∀ d : Change, (Change.resetChecked d).isSome ∧
      (Change.get_numChecked d).isSome) := by
  obtain ⟨h1, h2⟩ := h
  refine ⟨?_, ?_, fun d => ⟨rfl, rfl⟩⟩
  · have : inI32 (c.val + 1000) := by
      unfold inI32
      unfold i32Min i32Max at *
      omega
    simp [Change.addChecked, this]
  · have : inI32 (c.val - 10) := by
      unfold inI32
      unfold i32Min i32Max at *
      omega
    simp [Change.changeChecked, this]

/-- C8 witness: instantiated at the zero state. -/
theorem C8_no_fault_witness :
    (Change.addChecked ⟨0⟩).isSome ∧ (Change.changeChecked ⟨0⟩).isSome ∧
    (∀ d : Change, (Change.resetChecked d).isSome ∧
      (Change.get_numChecked d).isSome) :=
  C8_no_fault ⟨0⟩ (by decide)

/-- C9: `add()` and `change()` commute on the counter value — for every
value for which both orders stay within the `i32` range
(`i32::MIN + 10 ≤ value ≤ i32::MAX - 1000`), `add` then `change` yields
the same final state as `change` then `add`, and both yield
`value + 990`. -/
theorem C9_add_change_commute (c : Change)
    (h1 : i32Min + 10 ≤ c.val) (h2 : c.val ≤ i32Max - 1000) :
    (Change.change (Change.add c).1).1 = (Change.add (Change.change c).1).1 ∧
    (Change.change (Change.add c).1).1.val = c.val + 990 := by
  simp only [i32Min, i32Max] at h1 h2
  have hadd : (Change.add c).1.val = c.val + 1000 :=
    add_val (by unfold i32Min; omega) (by unfold i32Max; omega)
  have hchg : (Change.change c).1.val = c.val - 10 :=
    change_val (by unfold i32Min; omega) (by unfold i32Max; omega)
  have hac : (Change.change (Change.add c).1).1.val = c.val + 990 := by
    have := change_val (c := (Change.add c).1)
      (by rw [hadd]; unfold i32Min; omega)
      (by rw [hadd]; unfold i32Max; omega)
    rw [this, hadd]
    ring
  have hca : (Change.add (Change.change c).1).1.val = c.val + 990 := by
    have := add_val (c := (Change.change c).1)
      (by rw [hchg]; unfold i32Min; omega)
      (by rw [hchg]; unfold i32Max; omega)
    rw [this, hchg]
    ring
  exact ⟨Change.ext (by rw [hac, hca]), hac⟩

/-- C9 witness: instantiated at the zero state. -/
theorem C9_add_change_commute_witness :
    (Change.change (Change.add ⟨0⟩).1).1 =
      (Change.add (Change.change ⟨0⟩).1).1 ∧
    (Change.change (Change.add ⟨0⟩).1).1.val = (Change.mk 0).val + 990 :=
  C9_add_change_commute ⟨0⟩ (by decide) (by decide)

/-- C10: `change()` is a fractional inverse of `add()` — for every
value with `value + 1000` in the `i32` range, one call to `add()`
followed by exactly `100` calls to `change()` restores the counter
value. -/
theorem C10_change_inverts_add (c : Change)
    (h1 : i32Min ≤ c.val) (h2 : c.val + 1000 ≤ i32Max) :
    (Change.changeN 100 (Change.add c).1).val = c.val := by
  have hadd : (Change.add c).1.val = c.val + 1000 :=
    add_val (by unfold i32Min at h1 ⊢; omega) h2
  have h100 := changeN_val 100 (Change.add c).1
    (by rw [hadd]; push_cast; omega) (by rw [hadd]; omega)
  rw [h100, hadd]
  push_cast
  ring

/-- C10 witness: instantiated at the zero state. -/
theorem C10_change_inverts_add_witness :
    (Change.changeN 100 (Change.add ⟨0⟩).1).val = (Change.mk 0).val :=
  C10_change_inverts_add ⟨0⟩ (by decide) (by decide)
